import Mathlib

/-!
Shallow embedding of `src/flashcard_generator.py` (class `FlashCardGenerator`)
from the AI-Flashcard-Generator repository, together with theorems settling the
specification claims about it.

Modelling conventions:
* Python floats are modelled as rationals (`ℚ`), Python ints as `ℤ`.
* `reportlab.lib.units.cm` is `72 / 2.54` points and `A4` is `(210 mm, 297 mm)`,
  both exact rationals here.
* Python's `int(x)` conversion truncates toward zero; it is modelled by `pyInt`.
* Python's `//` and `%` on ints are floor division and floor-sign modulus,
  modelled by `Int.fdiv` and `Int.fmod`.
* Setters that can raise `ValueError` return `Except String _`; setters that
  cannot raise return the updated generator directly.
* `generate` renders pages; the drawing backend (reportlab canvas) is modelled
  by the geometric content it receives: one `Cell` per `c.rect`/frame call with
  the entry index, grid row/column and the `x0`/`y0` origin the code computes,
  one `Page` per `showPage` boundary (reportlab's `save` flushes the final
  drawn page).  The `while` loop of `generate` is modelled with explicit fuel:
  `none` means the loop did not finish within the given fuel, and a result that
  is `none` for every fuel is a non-terminating loop.
-/

namespace Flashcards

/-- reportlab's `cm` unit: 72 points per inch, 2.54 cm per inch. -/
def cm : ℚ := 3600 / 127

/-- reportlab's `A4` page size in points: (210 mm, 297 mm). -/
def A4 : ℚ × ℚ := (75600 / 127, 106920 / 127)

/-- Python's `int()` applied to a rational: truncation toward zero — the
floor for nonnegative arguments, the ceiling for negative ones. -/
def pyInt (q : ℚ) : ℤ := if 0 ≤ q then ⌊q⌋ else ⌈q⌉

/-- Literal-prefix test on character lists (no regex metacharacters are
involved: the delimiters `**`, `*`, `__` are literal). -/
def litPre : List Char → List Char → Bool
  | [], _ => true
  | _ :: _, [] => false
  | a :: as, b :: bs => a == b && litPre as bs

/-- Scanning for the closing delimiter of a non-greedy `(.*?)` group, as the
regex engine does after the opening delimiter matched: at each position it
first tries the closing delimiter (shortest match wins), otherwise consumes
one character via `.` — which cannot be a newline.  Returns the group's
content and the remainder after the closing delimiter, or `none` if no match
is possible from here. -/
def findClose (cd : List Char) : List Char → Option (List Char × List Char)
  | [] => none
  | c :: rest =>
    if litPre cd (c :: rest) then some ([], (c :: rest).drop cd.length)
    else if c = '\n' then none
    else
      match findClose cd rest with
      | some (inner, r) => some (c :: inner, r)
      | none => none

/-- One `re.sub` pass for a pattern `od(.*?)cd` with literal delimiters and
replacement `rl\1rr`: scan left to right; at a position where the opening
delimiter matches and a closing delimiter is reachable, emit the replacement
and resume after the match; otherwise emit the character and move on.  Each
step consumes at least one character, so fuel equal to the input length
suffices. -/
def subNG (od cd rl rr : List Char) : ℕ → List Char → List Char
  | 0, l => l
  | _ + 1, [] => []
  | fuel + 1, c :: rest =>
    if litPre od (c :: rest) then
      match findClose cd ((c :: rest).drop od.length) with
      | some (inner, r) => rl ++ inner ++ rr ++ subNG od cd rl rr fuel r
      | none => c :: subNG od cd rl rr fuel rest
    else c :: subNG od cd rl rr fuel rest

/-- One full `re.sub(pattern, repl, text)` call on a character list. -/
def subFull (od cd rl rr : List Char) (l : List Char) : List Char :=
  subNG od cd rl rr l.length l

/-- One flashcard entry, the dict appended by `add_entry`. -/
structure Entry where
  original : String
  translation : String
  extra : String
  index : String
deriving Repr, DecidableEq

/-- State of a `FlashCardGenerator` instance: the fields set in `__init__`.
`margins` is the tuple `(top, right, bottom, left)` as in the source. -/
structure FlashCardGenerator where
  filename : String
  page_size : ℚ × ℚ
  margins : ℚ × ℚ × ℚ × ℚ
  cards_per_row : ℤ
  card_height : ℚ
  entries : List Entry
deriving Repr, DecidableEq

/-- The state built by `FlashCardGenerator.__init__`. -/
def init : FlashCardGenerator :=
  { filename := "flashcards.pdf"
    page_size := A4
    margins := (cm, cm, cm, cm)
    cards_per_row := 2
    card_height := 5 * cm
    entries := [] }

namespace FlashCardGenerator

/-- `set_filename`: stores the filename, returns self. -/
def set_filename (g : FlashCardGenerator) (filename : String) : FlashCardGenerator :=
  { g with filename := filename }

/-- `set_cards_per_row`: raises `ValueError` on `count <= 0`, else stores. -/
def set_cards_per_row (g : FlashCardGenerator) (count : ℤ) :
    Except String FlashCardGenerator :=
  if count ≤ 0 then .error "Cards per row must be greater than 0"
  else .ok { g with cards_per_row := count }

/-- `set_page_size`: stores the size unconditionally, returns self. -/
def set_page_size (g : FlashCardGenerator) (size : ℚ × ℚ) : FlashCardGenerator :=
  { g with page_size := size }

/-- `set_margins`: stores `(top, right, bottom, left)` unconditionally. -/
def set_margins (g : FlashCardGenerator) (top right bottom left : ℚ) :
    FlashCardGenerator :=
  { g with margins := (top, right, bottom, left) }

/-- `set_card_height`: raises `ValueError` on `height <= 0`, else stores. -/
def set_card_height (g : FlashCardGenerator) (height : ℚ) :
    Except String FlashCardGenerator :=
  if height ≤ 0 then .error "Card height must be greater than 0"
  else .ok { g with card_height := height }

/-- `add_entry`: appends the entry dict, returns self. -/
def add_entry (g : FlashCardGenerator) (original translation extra index : String) :
    FlashCardGenerator :=
  { g with entries := g.entries ++ [⟨original, translation, extra, index⟩] }

/-- `_parse_markdown`: the three `re.sub` passes of the source, in order —
`\*\*(.*?)\*\*` → `<b>\1</b>`, then `\*(.*?)\*` → `<i>\1</i>`, then
`__(.*?)__` → `<u>\1</u>`. -/
def _parse_markdown (_g : FlashCardGenerator) (text : String) : String :=
  let t1 := subFull ['*', '*'] ['*', '*'] "<b>".data "</b>".data text.data
  let t2 := subFull ['*'] ['*'] "<i>".data "</i>".data t1
  let t3 := subFull ['_', '_'] ['_', '_'] "<u>".data "</u>".data t2
  String.mk t3

/-- `_calculate_card_dimensions`: returns `(card_width, max_cards_per_page)`.
`cards_per_column = int(usable_height / card_height)` truncates toward zero. -/
def _calculate_card_dimensions (g : FlashCardGenerator) : ℚ × ℤ :=
  let page_width := g.page_size.1
  let page_height := g.page_size.2
  let usable_width := page_width - g.margins.2.1 - g.margins.2.2.2
  let usable_height := page_height - g.margins.1 - g.margins.2.2.1
  let card_width := usable_width / (g.cards_per_row : ℚ)
  let cards_per_column := pyInt (usable_height / g.card_height)
  (card_width, g.cards_per_row * cards_per_column)

end FlashCardGenerator

/-- The geometric content drawn for one card face: the global entry index, the
grid position, and the cell origin `(x0, y0)` computed by `generate`. -/
structure Cell where
  entryIdx : ℤ
  row : ℤ
  col : ℤ
  x0 : ℚ
  y0 : ℚ
deriving Repr, DecidableEq

/-- One physical page of the produced document. -/
structure Page where
  isFront : Bool
  cells : List Cell
deriving Repr, DecidableEq

/-- Python's `range(n)` as a list of integers (empty if `n ≤ 0`). -/
def intRange (n : ℤ) : List ℤ := (List.range n.toNat).map (Nat.cast : ℕ → ℤ)

namespace FlashCardGenerator

/-- The cell drawn for loop index `i` in the front pass of `generate`:
`row = i // cards_per_row`, `col = i % cards_per_row`,
`x0 = margins[3] + col * card_width`,
`y0 = page_size[1] - margins[0] - (row + 1) * card_height`. -/
def frontCell (g : FlashCardGenerator) (card_width : ℚ) (cards_processed i : ℤ) :
    Cell :=
  let row := Int.fdiv i g.cards_per_row
  let col := Int.fmod i g.cards_per_row
  { entryIdx := cards_processed + i
    row := row
    col := col
    x0 := g.margins.2.2.2 + (col : ℚ) * card_width
    y0 := g.page_size.2 - g.margins.1 - ((row : ℚ) + 1) * g.card_height }

/-- The cell drawn for loop index `i` in the back pass of `generate`:
same row, `col = cards_per_row - 1 - (i % cards_per_row)`. -/
def backCell (g : FlashCardGenerator) (card_width : ℚ) (cards_processed i : ℤ) :
    Cell :=
  let row := Int.fdiv i g.cards_per_row
  let col := g.cards_per_row - 1 - Int.fmod i g.cards_per_row
  { entryIdx := cards_processed + i
    row := row
    col := col
    x0 := g.margins.2.2.2 + (col : ℚ) * card_width
    y0 := g.page_size.2 - g.margins.1 - ((row : ℚ) + 1) * g.card_height }

/-- The front page drawn by one iteration of the `while` loop:
cells for `i in range(cards_on_current_page)`. -/
def frontPage (g : FlashCardGenerator) (card_width : ℚ) (cards_processed n : ℤ) :
    Page :=
  ⟨true, (intRange n).map (g.frontCell card_width cards_processed)⟩

/-- The back page drawn by one iteration of the `while` loop. -/
def backPage (g : FlashCardGenerator) (card_width : ℚ) (cards_processed n : ℤ) :
    Page :=
  ⟨false, (intRange n).map (g.backCell card_width cards_processed)⟩

/-- The `while cards_processed < total_cards` loop of `generate`, with fuel.
Each iteration takes `cards_on_current_page = min(cards_per_page, remaining)`,
draws the front page and the back page, and advances `cards_processed`.
`none` means the fuel ran out before the loop condition became false. -/
def generateLoop (g : FlashCardGenerator) (card_width : ℚ)
    (cards_per_page total : ℤ) : ℕ → ℤ → Option (List Page)
  | 0, cards_processed => if cards_processed < total then none else some []
  | fuel + 1, cards_processed =>
    if cards_processed < total then
      let n := min cards_per_page (total - cards_processed)
      (generateLoop g card_width cards_per_page total fuel (cards_processed + n)).map
        (fun rest =>
          g.frontPage card_width cards_processed n ::
            g.backPage card_width cards_processed n :: rest)
    else some []

end FlashCardGenerator

/-- Observable outcome of `generate`: either the early-return warning for an
empty entry list (no document written), or the rendered document. -/
inductive GenerateResult where
  | noOutput (warning : String)
  | document (pages : List Page)
deriving Repr, DecidableEq

namespace FlashCardGenerator

/-- `generate`, with fuel for its pagination loop.  Returns the early warning
when there are no entries; otherwise runs the loop from `cards_processed = 0`.
`none` means the pagination loop did not terminate within the fuel. -/
def generate (g : FlashCardGenerator) (fuel : ℕ) : Option GenerateResult :=
  if g.entries = [] then
    some (.noOutput "Warning: No flashcard entries to generate")
  else
    let dims := g._calculate_card_dimensions
    (generateLoop g dims.1 dims.2 (g.entries.length : ℤ) fuel 0).map .document

/-- `generate_pdf(flashcards, output_path)`: clears `entries`, sets the
filename, appends each `(front, back, extra, index)` tuple via `add_entry`,
generates, and returns `output_path`. -/
def generate_pdf (g : FlashCardGenerator)
    (flashcards : List (String × String × String × String))
    (output_path : String) (fuel : ℕ) :
    FlashCardGenerator × Option GenerateResult × String :=
  let g1 := { g with entries := [] }
  let g2 := g1.set_filename output_path
  let g3 := flashcards.foldl
    (fun acc t => acc.add_entry t.1 t.2.1 t.2.2.1 t.2.2.2) g2
  (g3, g3.generate fuel, output_path)

end FlashCardGenerator

/-! Concrete generator states used by witnesses and counterexamples. -/

/-- A generator with three entries added to the default configuration. -/
def sample3 : FlashCardGenerator :=
  ((init.add_entry "q1" "a1" "" "").add_entry "q2" "a2" "" "").add_entry "q3" "a3" "" ""

/-- Default configuration with a 1000-point top margin: the usable height is
negative and not an exact multiple of the card height. -/
def gNegMargin : FlashCardGenerator := init.set_margins 1000 0 0 0

/-- A 10x10-point page with 200-point margins on every side, reached through
the unvalidated setters. -/
def gBadGeom : FlashCardGenerator :=
  (init.set_page_size (10, 10)).set_margins 200 200 200 200

/-- A 200x40-point page with the default margins and card height: the usable
height is less than one card height, so the derived cards-per-page is 0.
One entry is present. -/
def gZero : FlashCardGenerator :=
  (init.set_page_size (200, 40)).add_entry "q" "a" "" ""

/-! Helper lemmas, including concrete evaluations of
`_calculate_card_dimensions` (the rational arithmetic does not reduce by
`decide`, so the values are established through `pyInt`'s evaluation rules). -/

/-- Evaluation rule for `pyInt` on a nonnegative argument. -/
theorem pyInt_eq_of_nonneg {q : ℚ} {z : ℤ} (h0 : 0 ≤ q) (h1 : (z : ℚ) ≤ q)
    (h2 : q < z + 1) : pyInt q = z := by
  rw [pyInt, if_pos h0, Int.floor_eq_iff]
  exact ⟨h1, h2⟩

/-- Evaluation rule for `pyInt` on a negative argument. -/
theorem pyInt_eq_of_neg {q : ℚ} {z : ℤ} (h0 : ¬ 0 ≤ q) (h1 : (z : ℚ) - 1 < q)
    (h2 : q ≤ z) : pyInt q = z := by
  rw [pyInt, if_neg h0, Int.ceil_eq_iff]
  exact ⟨h1, h2⟩

/-- Arithmetic of the grouping: removing one group of `min Pn R` cards from
`R` remaining cards lowers the ceiling-division group count by exactly one. -/
theorem ceil_div_group_step (R Pn : ℕ) (hP : 0 < Pn) (hR : 0 < R) :
    (R + Pn - 1) / Pn = ((R - min Pn R) + Pn - 1) / Pn + 1 := by
  rcases le_or_lt R Pn with h | h
  · have h2 : R - min Pn R + Pn - 1 = Pn - 1 := by omega
    have hd : (Pn - 1) / Pn = 0 := Nat.div_eq_of_lt (by omega)
    have hone : (R + Pn - 1) / Pn = 1 := by
      have lo : 1 * Pn ≤ R + Pn - 1 := by omega
      have hi : R + Pn - 1 < (1 + 1) * Pn := by omega
      exact Nat.div_eq_of_lt_le lo hi
    rw [h2, hd, hone]
  · have h2 : R - min Pn R + Pn - 1 = R - 1 := by omega
    have h3 : R + Pn - 1 = (R - 1) + Pn := by omega
    rw [h2, h3, Nat.add_div_right _ hP]

/-- Indexing into the image of `intRange`: position `i.toNat` holds `f i`. -/
theorem intRange_map_getElem {α : Type} (f : ℤ → α) {n i : ℤ} (h0 : 0 ≤ i)
    (hn : i < n) : ((intRange n).map f)[i.toNat]? = some (f i) := by
  have h1 : i.toNat < n.toNat := by omega
  rw [List.getElem?_map, intRange, List.getElem?_map, List.getElem?_range h1,
    Option.map_some', Option.map_some', Int.toNat_of_nonneg h0]

/-- A substitution pass whose opening delimiter starts with a character that
does not occur in the input leaves the input unchanged. -/
theorem subNG_id (x : Char) (od cd rl rr : List Char) :
    ∀ (fuel : ℕ) (l : List Char), x ∉ l → subNG (x :: od) cd rl rr fuel l = l := by
  intro fuel
  induction fuel with
  | zero => intro l _; rfl
  | succ n ih =>
    intro l hx
    match l with
    | [] => rfl
    | c :: rest =>
      have hxc : (x == c) = false := by
        simp only [beq_eq_false_iff_ne, ne_eq]
        intro h
        exact hx (h ▸ List.mem_cons_self c rest)
      have hne : litPre (x :: od) (c :: rest) = false := by
        simp [litPre, hxc]
      have hrest : x ∉ rest := fun hm => hx (List.mem_cons_of_mem _ hm)
      simp [subNG, hne, ih rest hrest]

/-- The default A4 configuration yields 10 cards per page
(matching the spec's worked example). -/
theorem default_cards_per_page : init._calculate_card_dimensions.2 = 10 := by
  simp only [FlashCardGenerator._calculate_card_dimensions, init, A4, cm]
  norm_num
  rw [pyInt_eq_of_nonneg (z := 5) (by norm_num) (by norm_num) (by norm_num)]
  norm_num

/-- The 200x40 page with default margins yields 0 cards per page. -/
theorem gZero_cards_per_page : gZero._calculate_card_dimensions.2 = 0 := by
  simp only [FlashCardGenerator._calculate_card_dimensions, gZero, init,
    FlashCardGenerator.set_page_size, FlashCardGenerator.add_entry, A4, cm]
  norm_num
  rw [pyInt_eq_of_neg (z := 0) (by norm_num) (by norm_num) (by norm_num)]

/-- The 10x10 page with 200-point margins yields -4 cards per page. -/
theorem gBadGeom_cards_per_page : gBadGeom._calculate_card_dimensions.2 = -4 := by
  simp only [FlashCardGenerator._calculate_card_dimensions, gBadGeom, init,
    FlashCardGenerator.set_page_size, FlashCardGenerator.set_margins, A4, cm]
  norm_num
  rw [pyInt_eq_of_neg (z := -2) (by norm_num) (by norm_num) (by norm_num)]
  norm_num

/-- With a 1000-point top margin on A4, the code computes -2 cards per page
(the truncation-toward-zero of a quotient strictly between -2 and -1). -/
theorem gNegMargin_cards_per_page :
    gNegMargin._calculate_card_dimensions.2 = -2 := by
  simp only [FlashCardGenerator._calculate_card_dimensions, gNegMargin, init,
    FlashCardGenerator.set_margins, A4, cm]
  norm_num
  rw [pyInt_eq_of_neg (z := -1) (by norm_num) (by norm_num) (by norm_num)]
  norm_num

namespace FlashCardGenerator

/-- Unfolding `generate` when the entry list is non-empty. -/
theorem generate_eq_loop (g : FlashCardGenerator) (fuel : ℕ)
    (h : g.entries ≠ []) :
    g.generate fuel =
      (generateLoop g g._calculate_card_dimensions.1
        g._calculate_card_dimensions.2 (g.entries.length : ℤ) fuel 0).map
        .document := by
  simp only [generate, if_neg h]

/-- When `cards_per_page ≤ 0` the pagination loop makes no forward progress,
so it fails to terminate for every fuel while entries remain. -/
theorem generateLoop_none_of_nonpos (g : FlashCardGenerator) (cw : ℚ)
    (P total : ℤ) (hP : P ≤ 0) :
    ∀ (fuel : ℕ) (cp : ℤ), cp < total → generateLoop g cw P total fuel cp = none := by
  intro fuel
  induction fuel with
  | zero => intro cp h; simp [generateLoop, h]
  | succ n ih =>
    intro cp h
    have h2 : cp + min P (total - cp) < total := by
      have := min_le_left P (total - cp)
      omega
    simp [generateLoop, h, ih _ h2]

/-- With a positive cards-per-page `P` and fuel at least the remaining card
count, the pagination loop terminates and produces
`2 * ceil(remaining / P)` pages, alternating front (even positions) and back
(odd positions). -/
theorem generateLoop_count (g : FlashCardGenerator) (cw : ℚ) (P total : ℤ)
    (hP : 0 < P) :
    ∀ (fuel : ℕ) (cp : ℤ), (total - cp).toNat ≤ fuel →
      ∃ pages, generateLoop g cw P total fuel cp = some pages ∧
        pages.length = 2 * (((total - cp).toNat + P.toNat - 1) / P.toNat) ∧
        (∀ m : ℕ, ∀ p, pages[2 * m]? = some p → p.isFront = true) ∧
        (∀ m : ℕ, ∀ p, pages[2 * m + 1]? = some p → p.isFront = false) := by
  intro fuel
  induction fuel with
  | zero =>
    intro cp hf
    have hcp : ¬ cp < total := by omega
    refine ⟨[], by simp [generateLoop, hcp], ?_, by simp, by simp⟩
    have h0 : (total - cp).toNat = 0 := by omega
    have hd : (0 + P.toNat - 1) / P.toNat = 0 := Nat.div_eq_of_lt (by omega)
    rw [h0, hd]
    rfl
  | succ m ih =>
    intro cp hf
    by_cases hcp : cp < total
    · have hfm : (total - (cp + min P (total - cp))).toNat ≤ m := by omega
      obtain ⟨rest, hrest, hlen, hfr, hbk⟩ := ih (cp + min P (total - cp)) hfm
      refine ⟨g.frontPage cw cp (min P (total - cp)) ::
          g.backPage cw cp (min P (total - cp)) :: rest, ?_, ?_, ?_, ?_⟩
      · simp only [generateLoop, if_pos hcp, hrest, Option.map_some']
      · simp only [List.length_cons, hlen]
        have he : (total - (cp + min P (total - cp))).toNat =
            (total - cp).toNat - min P.toNat (total - cp).toNat := by omega
        have hPn : 0 < P.toNat := by omega
        have hRn : 0 < (total - cp).toNat := by omega
        rw [he, ceil_div_group_step _ _ hPn hRn]
        ring
      · intro j p hp
        match j with
        | 0 =>
          simp only [Nat.mul_zero, List.getElem?_cons_zero, Option.some_inj] at hp
          rw [← hp]
          rfl
        | jj + 1 =>
          have hidx : 2 * (jj + 1) = (2 * jj + 1) + 1 := by ring
          rw [hidx, List.getElem?_cons_succ, List.getElem?_cons_succ] at hp
          exact hfr jj p hp
      · intro j p hp
        match j with
        | 0 =>
          simp only [Nat.mul_zero, Nat.zero_add, List.getElem?_cons_succ,
            List.getElem?_cons_zero, Option.some_inj] at hp
          rw [← hp]
          rfl
        | jj + 1 =>
          have hidx : 2 * (jj + 1) + 1 = ((2 * jj + 1) + 1) + 1 := by ring
          rw [hidx, List.getElem?_cons_succ, List.getElem?_cons_succ] at hp
          exact hbk jj p hp
    · refine ⟨[], by simp [generateLoop, hcp], ?_, by simp, by simp⟩
      have h0 : (total - cp).toNat = 0 := by omega
      have hd : (0 + P.toNat - 1) / P.toNat = 0 := Nat.div_eq_of_lt (by omega)
      rw [h0, hd]
      rfl

/-- Position of an arbitrary remaining entry `k` in the pages emitted by the
pagination loop (with positive cards-per-page `P` and sufficient fuel): its
front page sits at page index `2 * ((k - cp) / P)`, the back page right after
it, and on both the cell sits at within-group position `(k - cp) % P`, drawn
by `frontCell`/`backCell` from the group's starting offset and the
within-group loop index. -/
theorem generateLoop_index (g : FlashCardGenerator) (cw : ℚ) (P total : ℤ)
    (hP : 0 < P) :
    ∀ (fuel : ℕ) (cp k : ℤ), 0 ≤ cp → cp ≤ k → k < total →
      (total - cp).toNat ≤ fuel →
      ∀ pages, generateLoop g cw P total fuel cp = some pages →
      ∃ fp bp,
        pages[(2 * ((k - cp) / P)).toNat]? = some fp ∧
        pages[(2 * ((k - cp) / P)).toNat + 1]? = some bp ∧
        fp.isFront = true ∧ bp.isFront = false ∧
        fp.cells[((k - cp) % P).toNat]? =
          some (g.frontCell cw (cp + P * ((k - cp) / P)) ((k - cp) % P)) ∧
        bp.cells[((k - cp) % P).toNat]? =
          some (g.backCell cw (cp + P * ((k - cp) / P)) ((k - cp) % P)) := by
  intro fuel
  induction fuel with
  | zero =>
    intro cp k h0 hck hkt hf pages hpages
    exact absurd hkt (by omega)
  | succ m ih =>
    intro cp k h0 hck hkt hf pages hpages
    have hcp : cp < total := by omega
    simp only [generateLoop, if_pos hcp, Option.map_eq_some'] at hpages
    obtain ⟨rest, hrest, hpe⟩ := hpages
    subst hpe
    by_cases hkn : k < cp + min P (total - cp)
    · have hj0 : 0 ≤ k - cp := by omega
      have hjP : k - cp < P := by omega
      have hdiv : (k - cp) / P = 0 := Int.ediv_eq_zero_of_lt hj0 hjP
      have hmod : (k - cp) % P = k - cp := Int.emod_eq_of_lt hj0 hjP
      have h20 : (2 * ((0:ℤ))).toNat = 0 := rfl
      refine ⟨g.frontPage cw cp (min P (total - cp)),
        g.backPage cw cp (min P (total - cp)), ?_, ?_, rfl, rfl, ?_, ?_⟩
      · rw [hdiv, h20, List.getElem?_cons_zero]
      · rw [hdiv, h20, List.getElem?_cons_succ, List.getElem?_cons_zero]
      · rw [hmod, hdiv]
        have hc : cp + P * 0 = cp := by ring
        rw [hc]
        exact intRange_map_getElem _ hj0 (by omega)
      · rw [hmod, hdiv]
        have hc : cp + P * 0 = cp := by ring
        rw [hc]
        exact intRange_map_getElem _ hj0 (by omega)
    · have hn : min P (total - cp) = P := by omega
      rw [hn] at hrest
      have hck' : cp + P ≤ k := by omega
      obtain ⟨fp, bp, h1, h2, h3, h4, h5, h6⟩ :=
        ih (cp + P) k (by omega) hck' hkt (by omega) rest hrest
      have e1 : k - cp = (k - (cp + P)) + 1 * P := by ring
      have hdiv : (k - cp) / P = (k - (cp + P)) / P + 1 := by
        rw [e1, Int.add_mul_ediv_right _ _ (by omega : P ≠ 0)]
      have hmod : (k - cp) % P = (k - (cp + P)) % P := by
        rw [e1]
        exact Int.add_mul_emod_self
      have hgi' : 0 ≤ (k - (cp + P)) / P := Int.ediv_nonneg (by omega) (by omega)
      have hidx1 : (2 * ((k - cp) / P)).toNat =
          ((2 * ((k - (cp + P)) / P)).toNat + 1) + 1 := by
        rw [hdiv]
        omega
      have hc : cp + P * ((k - cp) / P) = (cp + P) + P * ((k - (cp + P)) / P) := by
        rw [hdiv]
        ring
      refine ⟨fp, bp, ?_, ?_, h3, h4, ?_, ?_⟩
      · rw [hidx1, List.getElem?_cons_succ, List.getElem?_cons_succ]
        exact h1
      · rw [hidx1, List.getElem?_cons_succ, List.getElem?_cons_succ]
        exact h2
      · rw [hmod, hc]
        exact h5
      · rw [hmod, hc]
        exact h6

/-- Folding `add_entry` over a tuple list appends the corresponding entries. -/
theorem foldl_add_entry (L : List (String × String × String × String)) :
    ∀ g : FlashCardGenerator,
      L.foldl (fun acc t => acc.add_entry t.1 t.2.1 t.2.2.1 t.2.2.2) g =
        { g with entries :=
            g.entries ++ L.map (fun t => ⟨t.1, t.2.1, t.2.2.1, t.2.2.2⟩) } := by
  induction L with
  | nil => intro g; simp
  | cons t ts ih =>
    intro g
    rw [List.foldl_cons, ih]
    simp [add_entry, List.append_assoc]

end FlashCardGenerator

namespace Claims

open FlashCardGenerator

/-- Claim C6: for every integer `count ≤ 0`, `set_cards_per_row` raises
`ValueError` at the setter (returning the error, leaving no updated state),
and for every `height ≤ 0`, `set_card_height` likewise raises; neither value
is clamped, and this happens before any call to `generate`. -/
theorem setters_reject_nonpositive :
    (∀ (g : FlashCardGenerator) (count : ℤ), count ≤ 0 →
      g.set_cards_per_row count = .error "Cards per row must be greater than 0") ∧
    (∀ (g : FlashCardGenerator) (height : ℚ), height ≤ 0 →
      g.set_card_height height = .error "Card height must be greater than 0") := by
  constructor
  · intro g c hc; simp [set_cards_per_row, hc]
  · intro g h hh; simp [set_card_height, hh]

/-- Witness for C6 at concrete non-positive inputs. -/
theorem setters_reject_nonpositive_witness :
    init.set_cards_per_row 0 = .error "Cards per row must be greater than 0" ∧
    init.set_card_height (-1) = .error "Card height must be greater than 0" :=
  ⟨setters_reject_nonpositive.1 init 0 (by decide),
    setters_reject_nonpositive.2 init (-1) (by norm_num)⟩

/-- Claim C7: with an empty entry list, `generate` emits the warning notice
and produces no document, raising no error, for every configuration (and every
fuel, i.e. without entering the pagination loop at all). -/
theorem generate_empty_entries (g : FlashCardGenerator) (fuel : ℕ)
    (h : g.entries = []) :
    g.generate fuel = some (.noOutput "Warning: No flashcard entries to generate") := by
  simp [generate, h]

/-- Witness for C7 on the freshly initialized generator. -/
theorem generate_empty_entries_witness :
    init.generate 0 = some (.noOutput "Warning: No flashcard entries to generate") :=
  generate_empty_entries init 0 rfl

/-- Claim C9: `generate_pdf` first clears the stored entries, then sets the
filename, then appends exactly the given tuples in order, then generates: the
resulting state and document depend only on the tuple list, the path and the
prior configuration fields — never on entries from earlier runs. -/
theorem generate_pdf_resets_state (g : FlashCardGenerator)
    (L : List (String × String × String × String)) (p : String) (fuel : ℕ) :
    g.generate_pdf L p fuel =
      ({ g with
          filename := p
          entries := L.map (fun t => ⟨t.1, t.2.1, t.2.2.1, t.2.2.2⟩) },
        generate
          { g with
            filename := p
            entries := L.map (fun t => ⟨t.1, t.2.1, t.2.2.1, t.2.2.2⟩) } fuel,
        p) := by
  simp [generate_pdf, set_filename, foldl_add_entry]

/-- Claim C10: `set_margins` and `set_page_size` validate nothing — every
argument, however degenerate, is stored and the builder returned; such
geometry reaches `_calculate_card_dimensions` unchecked (here yielding a
negative cards-per-page) and then `generate`, whose pagination loop never
terminates on it. -/
theorem set_margins_page_size_unvalidated :
    (∀ (g : FlashCardGenerator) (top right bottom left : ℚ),
      g.set_margins top right bottom left =
        { g with margins := (top, right, bottom, left) }) ∧
    (∀ (g : FlashCardGenerator) (size : ℚ × ℚ),
      g.set_page_size size = { g with page_size := size }) ∧
    gBadGeom._calculate_card_dimensions.2 = -4 ∧
    (∀ fuel : ℕ, (gBadGeom.add_entry "q" "a" "" "").generate fuel = none) := by
  refine ⟨fun g t r b l => rfl, fun g s => rfl, gBadGeom_cards_per_page,
    fun fuel => ?_⟩
  have hne : (gBadGeom.add_entry "q" "a" "" "").entries ≠ [] := by decide
  have hP : (gBadGeom.add_entry "q" "a" "" "")._calculate_card_dimensions.2 = -4 :=
    gBadGeom_cards_per_page
  rw [generate_eq_loop _ _ hne,
    generateLoop_none_of_nonpos _ _ _ _ (by rw [hP]; norm_num) fuel 0 (by decide)]
  rfl

/-- Claim C3 (the code side): on a configuration whose derived cards-per-page
is 0 — reachable through the setters — `generate` with a non-empty entry list
never terminates: for every fuel the pagination loop fails to finish, because
`cards_on_current_page = min(0, remaining) = 0` never advances
`cards_processed`.  The code has no rejection of this configuration. -/
theorem generate_zero_cards_per_page_loops :
    ∀ fuel : ℕ, gZero.generate fuel = none := by
  intro fuel
  have hne : gZero.entries ≠ [] := by decide
  rw [generate_eq_loop _ _ hne,
    generateLoop_none_of_nonpos _ _ _ _ (le_of_eq gZero_cards_per_page) fuel 0
      (by decide)]
  rfl

/-- Claim C1: within any page group, the front pass places the cell with loop
index `i` (whose entry is entry `cards_processed + i`) at row
`i div cards_per_row` and column `i mod cards_per_row`, and the back pass
places the cell with the same loop index — the same entry — at the same row
and at the horizontally mirrored column
`cards_per_row - 1 - (i mod cards_per_row)`. -/
theorem front_back_mirroring (g : FlashCardGenerator) (cw : ℚ) (cp n i : ℤ)
    (hrow : 0 < g.cards_per_row) (h0 : 0 ≤ i) (hn : i < n) :
    (g.frontPage cw cp n).cells[i.toNat]? = some (g.frontCell cw cp i) ∧
    (g.backPage cw cp n).cells[i.toNat]? = some (g.backCell cw cp i) ∧
    (g.frontCell cw cp i).entryIdx = cp + i ∧
    (g.backCell cw cp i).entryIdx = cp + i ∧
    (g.frontCell cw cp i).row = i / g.cards_per_row ∧
    (g.frontCell cw cp i).col = i % g.cards_per_row ∧
    (g.backCell cw cp i).row = (g.frontCell cw cp i).row ∧
    (g.backCell cw cp i).col = g.cards_per_row - 1 - (g.frontCell cw cp i).col :=
  ⟨intRange_map_getElem _ h0 hn, intRange_map_getElem _ h0 hn, rfl, rfl,
    Int.fdiv_eq_ediv i hrow.le, Int.fmod_eq_emod i hrow.le, rfl, rfl⟩

/-- Witness for C1 at the spec's worked example: cell 7 of a 10-cell group
with 2 cards per row sits at front row 3, column 1 and back row 3, column 0. -/
theorem front_back_mirroring_witness :
    (init.frontPage 100 0 10).cells[(7 : ℤ).toNat]? =
        some (init.frontCell 100 0 7) ∧
    (init.backPage 100 0 10).cells[(7 : ℤ).toNat]? =
        some (init.backCell 100 0 7) ∧
    (init.frontCell 100 0 7).entryIdx = 0 + 7 ∧
    (init.backCell 100 0 7).entryIdx = 0 + 7 ∧
    (init.frontCell 100 0 7).row = 7 / init.cards_per_row ∧
    (init.frontCell 100 0 7).col = 7 % init.cards_per_row ∧
    (init.backCell 100 0 7).row = (init.frontCell 100 0 7).row ∧
    (init.backCell 100 0 7).col =
      init.cards_per_row - 1 - (init.frontCell 100 0 7).col :=
  front_back_mirroring init 100 0 10 7 (by decide) (by decide) (by decide)

/-- Claim C2: with a non-empty entry list of length `N` and a positive derived
cards-per-page `P`, `generate` terminates (given fuel at least `N`, and each
loop iteration consumes at least one card) and produces a document of exactly
`2 * ceil(N / P)` physical pages: `ceil(N / P)` groups, each contributing one
front page (even positions) followed by one back page (odd positions). -/
theorem generate_total_pages (g : FlashCardGenerator) (fuel : ℕ)
    (hP : 0 < g._calculate_card_dimensions.2)
    (hne : g.entries ≠ [])
    (hfuel : g.entries.length ≤ fuel) :
    ∃ pages, g.generate fuel = some (.document pages) ∧
      pages.length =
        2 * ((g.entries.length + g._calculate_card_dimensions.2.toNat - 1) /
          g._calculate_card_dimensions.2.toNat) ∧
      (∀ m : ℕ, ∀ p, pages[2 * m]? = some p → p.isFront = true) ∧
      (∀ m : ℕ, ∀ p, pages[2 * m + 1]? = some p → p.isFront = false) := by
  have htot : (((g.entries.length : ℤ) - 0).toNat) ≤ fuel := by omega
  obtain ⟨pages, hp, hlen, hf, hb⟩ :=
    generateLoop_count g g._calculate_card_dimensions.1
      g._calculate_card_dimensions.2 (g.entries.length : ℤ) hP fuel 0 htot
  refine ⟨pages, ?_, ?_, hf, hb⟩
  · rw [generate_eq_loop _ _ hne, hp]
    rfl
  · rw [hlen]
    have he : (((g.entries.length : ℤ)) - 0).toNat = g.entries.length := by omega
    rw [he]

/-- Witness for C2: three entries on the default configuration (ten cards per
page) produce one group, hence two physical pages. -/
theorem generate_total_pages_witness :
    ∃ pages, sample3.generate 3 = some (.document pages) ∧
      pages.length =
        2 * ((sample3.entries.length + sample3._calculate_card_dimensions.2.toNat - 1) /
          sample3._calculate_card_dimensions.2.toNat) ∧
      (∀ m : ℕ, ∀ p, pages[2 * m]? = some p → p.isFront = true) ∧
      (∀ m : ℕ, ∀ p, pages[2 * m + 1]? = some p → p.isFront = false) :=
  generate_total_pages sample3 3
    (by
      have h : sample3._calculate_card_dimensions.2 = 10 := default_cards_per_page
      rw [h]
      norm_num)
    (by decide) (by decide)

/-- Claim C5: for every entry list, global index `k` and positive derived
cards-per-page `P`, entry `k` is rendered on the front page of group `k div P`
(page position `2 * (k div P)`, a front page) at within-group cell index
`k mod P`, and on the immediately following back page at the same cell index;
on both passes its row is `(k mod P) div cards_per_row` — computed from the
entry's position within the current group, not from the global index — and
the back column is the mirror of the front column.  This holds for every `k`,
including entries of a final group smaller than `P`. -/
theorem order_preservation (g : FlashCardGenerator) (fuel : ℕ) (k : ℤ)
    (hrow : 0 < g.cards_per_row)
    (hP : 0 < g._calculate_card_dimensions.2)
    (hk0 : 0 ≤ k) (hk : k < (g.entries.length : ℤ))
    (hfuel : g.entries.length ≤ fuel) :
    ∃ pages fp bp fc bc,
      g.generate fuel = some (.document pages) ∧
      pages[(2 * (k / g._calculate_card_dimensions.2)).toNat]? = some fp ∧
      fp.isFront = true ∧
      pages[(2 * (k / g._calculate_card_dimensions.2)).toNat + 1]? = some bp ∧
      bp.isFront = false ∧
      fp.cells[(k % g._calculate_card_dimensions.2).toNat]? = some fc ∧
      bp.cells[(k % g._calculate_card_dimensions.2).toNat]? = some bc ∧
      fc.entryIdx = k ∧ bc.entryIdx = k ∧
      fc.row = (k % g._calculate_card_dimensions.2) / g.cards_per_row ∧
      bc.row = fc.row ∧
      fc.col = (k % g._calculate_card_dimensions.2) % g.cards_per_row ∧
      bc.col = g.cards_per_row - 1 - fc.col := by
  have hne : g.entries ≠ [] := by
    intro hE
    rw [hE] at hk
    simp at hk
    omega
  obtain ⟨pages, hp, hrest⟩ := generateLoop_count g g._calculate_card_dimensions.1
    g._calculate_card_dimensions.2 (g.entries.length : ℤ) hP fuel 0 (by omega)
  obtain ⟨fp, bp, h1, h2, h3, h4, h5, h6⟩ := generateLoop_index g
    g._calculate_card_dimensions.1 g._calculate_card_dimensions.2
    (g.entries.length : ℤ) hP fuel 0 k le_rfl hk0 hk (by omega) pages hp
  have e0 : k - 0 = k := by ring
  rw [e0] at h1 h2 h5 h6
  have e1 : 0 + g._calculate_card_dimensions.2 * (k / g._calculate_card_dimensions.2)
      = g._calculate_card_dimensions.2 * (k / g._calculate_card_dimensions.2) := by
    ring
  rw [e1] at h5 h6
  refine ⟨pages, fp, bp, _, _, ?_, h1, h3, h2, h4, h5, h6, ?_, ?_, ?_, rfl, ?_, rfl⟩
  · rw [generate_eq_loop _ _ hne, hp]
    rfl
  · exact Int.ediv_add_emod k _
  · exact Int.ediv_add_emod k _
  · exact Int.fdiv_eq_ediv _ hrow.le
  · exact Int.fmod_eq_emod _ hrow.le

/-- Witness for C5: entry 2 of three entries on the default configuration
(ten cards per page, two per row) lands in group 0, cell 2: front row 1,
column 0; back row 1, column 1. -/
theorem order_preservation_witness :
    ∃ pages fp bp fc bc,
      sample3.generate 3 = some (.document pages) ∧
      pages[(2 * (2 / sample3._calculate_card_dimensions.2)).toNat]? = some fp ∧
      fp.isFront = true ∧
      pages[(2 * (2 / sample3._calculate_card_dimensions.2)).toNat + 1]? = some bp ∧
      bp.isFront = false ∧
      fp.cells[((2:ℤ) % sample3._calculate_card_dimensions.2).toNat]? = some fc ∧
      bp.cells[((2:ℤ) % sample3._calculate_card_dimensions.2).toNat]? = some bc ∧
      fc.entryIdx = 2 ∧ bc.entryIdx = 2 ∧
      fc.row = ((2:ℤ) % sample3._calculate_card_dimensions.2) / sample3.cards_per_row ∧
      bc.row = fc.row ∧
      fc.col = ((2:ℤ) % sample3._calculate_card_dimensions.2) % sample3.cards_per_row ∧
      bc.col = sample3.cards_per_row - 1 - fc.col :=
  order_preservation sample3 3 2 (by decide)
    (by
      have h : sample3._calculate_card_dimensions.2 = 10 := default_cards_per_page
      rw [h]
      norm_num)
    (by decide) (by decide) (by decide)

/-- Claim C8: `_parse_markdown` is the identity on every string containing no
markup delimiter character (`*` or `_`); matching is non-greedy (the shortest
span closes a pair, so `**a** **b**` becomes two bold spans rather than one
greedy span), and unmatched delimiters are left as literal characters with no
error (`*a` is returned as is — the translator is a total function). -/
theorem parse_markdown_plain_identity :
    (∀ (g : FlashCardGenerator) (s : String),
      '*' ∉ s.data → '_' ∉ s.data → g._parse_markdown s = s) ∧
    init._parse_markdown "**a** **b**" = "<b>a</b> <b>b</b>" ∧
    init._parse_markdown "*a" = "*a" := by
  refine ⟨?_, by decide, by decide⟩
  intro g s hs hu
  obtain ⟨l⟩ := s
  simp only [FlashCardGenerator._parse_markdown, subFull, String.data]
  rw [subNG_id '*' _ _ _ _ _ _ hs, subNG_id '*' _ _ _ _ _ _ hs,
    subNG_id '_' _ _ _ _ _ _ hu]

/-- Witness for C8's identity part on a markup-free string. -/
theorem parse_markdown_plain_identity_witness :
    init._parse_markdown "hello" = "hello" :=
  parse_markdown_plain_identity.1 init "hello" (by decide) (by decide)

/-- Claim C4 fails as stated: with `cards_per_row = 2 > 0` and the default
positive card height, but a 1000-point top margin (so a negative usable
height), the code computes `2 * int(-251/225) = -2` via truncation toward
zero, while `cards_per_row * floor(usable_height / card_height) = -4`. -/
theorem card_dimensions_floor_counterexample :
    0 < gNegMargin.cards_per_row ∧ 0 < gNegMargin.card_height ∧
    gNegMargin._calculate_card_dimensions.2 ≠
      gNegMargin.cards_per_row *
        ⌊(gNegMargin.page_size.2 - gNegMargin.margins.1 - gNegMargin.margins.2.2.1) /
          gNegMargin.card_height⌋ := by
  refine ⟨by decide, by norm_num [init, gNegMargin, set_margins, cm], ?_⟩
  rw [gNegMargin_cards_per_page]
  simp only [gNegMargin, init, set_margins, A4, cm]
  norm_num

/-- Claim C4, amended: for every configuration with `cards_per_row > 0`,
`card_height > 0` and a nonnegative usable height (where Python's `int()`
coincides with `floor`), the derived cards-per-page equals
`cards_per_row * floor((page_height - margin_top - margin_bottom) / card_height)`,
and the derived card width equals
`(page_width - margin_left - margin_right) / cards_per_row`. -/
theorem card_dimensions_eq (g : FlashCardGenerator)
    (hrow : 0 < g.cards_per_row) (hh : 0 < g.card_height)
    (huh : 0 ≤ g.page_size.2 - g.margins.1 - g.margins.2.2.1) :
    g._calculate_card_dimensions.2 =
      g.cards_per_row *
        ⌊(g.page_size.2 - g.margins.1 - g.margins.2.2.1) / g.card_height⌋ ∧
    g._calculate_card_dimensions.1 =
      (g.page_size.1 - g.margins.2.2.2 - g.margins.2.1) / (g.cards_per_row : ℚ) := by
  constructor
  · simp only [_calculate_card_dimensions, pyInt]
    rw [if_pos (div_nonneg huh hh.le)]
  · simp only [_calculate_card_dimensions]
    ring

/-- Witness for the amended C4 on the default configuration. -/
theorem card_dimensions_eq_witness :
    init._calculate_card_dimensions.2 =
      init.cards_per_row *
        ⌊(init.page_size.2 - init.margins.1 - init.margins.2.2.1) / init.card_height⌋ ∧
    init._calculate_card_dimensions.1 =
      (init.page_size.1 - init.margins.2.2.2 - init.margins.2.1) /
        (init.cards_per_row : ℚ) :=
  card_dimensions_eq init (by decide) (by norm_num [init, cm])
    (by norm_num [init, A4, cm])

end Claims

end Flashcards
